import Mathlib

/-!
Verification of the school-management backend's bulk-import pipeline and
fee lifecycle engine.  The definitions below are a shallow embedding of
the JavaScript source:

* `feePreSave` embeds the `FeeSchema.pre('save')` hook of the Fee model.
* `calculateStudentArrears` and `createInitialFeeRecord` embed the helpers
  of `fee.controller.js`.
* `parseCsvLine`, `cleanHeaderKey`, `checkHeaders`, `keepRow`,
  `filterRows` embed the `parseFile` helper of `dashboard.controller.js`.
* `processStudentRow`, `processAdminRow`, `processSupportRow` and
  `runImport` embed the per-row bodies and the accounting loops of
  `uploadStudents` / `uploadAdminStaff` / `uploadSupportStaff`.

JavaScript numbers that hold money are modelled as `Int` (all source
operations on them are additions, subtractions and comparisons, which are
exact on integers).  JavaScript `Date` values are modelled at day
granularity by `SDate`; every comparison performed by the source compares
a date to the first or last day of a month, so day granularity is
faithful.  Mongoose documents are modelled as structures, collections as
lists, and `isModified` flags as explicit boolean inputs of the hook.
-/

/-- Calendar date at day granularity.  `month` is 0-indexed (January = 0)
exactly as in JavaScript `Date.getMonth()`. -/
structure SDate where
  year : Nat
  month : Nat
  day : Nat
deriving DecidableEq, Repr

/-- Chronological strict order on dates (JavaScript `<` on `Date`).
Lexicographic on year, month, day, which is chronological order for the
day-granularity dates the source manipulates. -/
def dateLt (a b : SDate) : Bool :=
  a.year < b.year ||
    (a.year = b.year && (a.month < b.month ||
      (a.month = b.month && a.day < b.day)))

/-- Chronological non-strict order on dates (JavaScript `<=`, and the
`$gte`/`$lte` query operators). -/
def dateLe (a b : SDate) : Bool :=
  dateLt a b || a = b

/-- Number of days of the (0-indexed) month `m` of year `y`, with the
Gregorian leap rule; this is the value JavaScript produces for
`new Date(y, m + 1, 0).getDate()`. -/
def daysInMonth (y m : Nat) : Nat :=
  if m = 1 then
    if y % 4 = 0 && (y % 100 ≠ 0 || y % 400 = 0) then 29 else 28
  else if m = 3 || m = 5 || m = 8 || m = 10 then 30
  else 31

theorem daysInMonth_pos (y m : Nat) : 1 ≤ daysInMonth y m := by
  unfold daysInMonth
  split
  · split <;> omega
  · split <;> omega

/-- First day of the month of `now`: `new Date(year, month, 1)`. -/
def startOfMonth (now : SDate) : SDate := ⟨now.year, now.month, 1⟩

/-- Last day of the month of `now`: `new Date(year, month + 1, 0)`. -/
def endOfMonth (now : SDate) : SDate :=
  ⟨now.year, now.month, daysInMonth now.year now.month⟩

/-- A document of the `Fee` collection.  `status` ranges over the strings
`"paid"`, `"unpaid"`, `"partial"`, `"overdue"` of the schema enum;
`feeType` over the fee-type enum.  `id` stands for the Mongo `_id`. -/
structure FeeRec where
  id : Nat
  student : Nat
  feeType : String
  amount : Int
  dueDate : SDate
  paymentDate : Option SDate
  status : String
  paidAmount : Int
  remainingAmount : Int
  arrears : Int
  recordedBy : Nat
deriving DecidableEq, Repr

/-- Final clause of the `pre('save')` hook: reclassify as overdue unless
the record is paid or already overdue.
Source: `if (this.status !== 'paid' && this.dueDate < new Date() && this.status !== 'overdue') this.status = 'overdue'`. -/
def applyOverdue (f : FeeRec) (now : SDate) : FeeRec :=
  if f.status ≠ "paid" && dateLt f.dueDate now && f.status ≠ "overdue" then
    { f with status := "overdue" }
  else f

/-- The `FeeSchema.pre('save')` hook.  `modStatus` and `modPaid` are the
values of `this.isModified('status')` / `this.isModified('paidAmount')`
on entry; `now` is the current time.  When the first branch assigns
`this.paidAmount = this.amount`, Mongoose marks `paidAmount` modified
whenever the assigned value differs from the current one, which the
second branch then observes — `modPaid'` reproduces that marking. -/
def feePreSave (f : FeeRec) (modStatus modPaid : Bool) (now : SDate) : FeeRec :=
  let f1 :=
    if modStatus && f.status = "paid" then
      { f with paidAmount := f.amount, remainingAmount := 0,
               paymentDate := some (f.paymentDate.getD now) }
    else f
  let modPaid' :=
    modPaid || (modStatus && f.status = "paid" && f.paidAmount ≠ f.amount)
  let f2 :=
    if modPaid' then
      let fa := { f1 with remainingAmount := f1.amount - f1.paidAmount }
      if fa.paidAmount = 0 then { fa with status := "unpaid" }
      else if fa.paidAmount < fa.amount then { fa with status := "partial" }
      else { fa with status := "paid",
                     paymentDate := some (fa.paymentDate.getD now) }
    else f1
  applyOverdue f2 now

/-- Arrears qualification used by `calculateStudentArrears`: the fee
belongs to the student, is due strictly before the start of the current
month, and its status is unpaid, partial or overdue. -/
def qualifiesArrears (sid : Nat) (firstOfMonth : SDate) (f : FeeRec) : Bool :=
  f.student = sid && dateLt f.dueDate firstOfMonth &&
    (f.status = "unpaid" || f.status = "partial" || f.status = "overdue")

/-- Contribution of one qualifying fee to the arrears total: the
remaining amount for partial fees, the full amount otherwise. -/
def arrearsContribution (f : FeeRec) : Int :=
  if f.status = "partial" then f.remainingAmount else f.amount

/-- Embedding of `calculateStudentArrears` (fee.controller.js).  The
database query `Fee.find({student, dueDate: {$lt: start}, status: {$in: …}})`
is modelled as a filter over the fee collection.  A missing `studentId`
(source: `if (!studentId) return 0`) is modelled by `none`. -/
def calculateStudentArrears (now : SDate) (fees : List FeeRec)
    (studentId : Option Nat) : Int :=
  match studentId with
  | none => 0
  | some sid =>
    if now.month = 4 && now.year = 2025 then 0
    else
      let firstOfMonth := startOfMonth now
      let previousFees := fees.filter (qualifiesArrears sid firstOfMonth)
      previousFees.foldl (fun acc f => acc + arrearsContribution f) 0

/-- Largest `_id` present in the fee collection (0 when empty); used to
model Mongo's allocation of a fresh `_id` on `Fee.create`. -/
def maxFeeId (fees : List FeeRec) : Nat :=
  fees.foldl (fun a f => max a f.id) 0

/-- Fresh `_id` for a newly created fee document. -/
def freshFeeId (fees : List FeeRec) : Nat := maxFeeId fees + 1

/-- The month-scoped lookup of `createInitialFeeRecord`:
`Fee.findOne({student, feeType: 'tuition', dueDate: {$gte: startOfMonth, $lte: endOfMonth}})`. -/
def tuitionThisMonth (sid : Nat) (now : SDate) (f : FeeRec) : Bool :=
  f.student = sid && f.feeType = "tuition" &&
    dateLe (startOfMonth now) f.dueDate && dateLe f.dueDate (endOfMonth now)

/-- The fields of the `feeData` object built by `createInitialFeeRecord`
applied to an existing document by
`Fee.findByIdAndUpdate(existingFee._id, feeData, …)`; only the keys
present in `feeData` are written (`findByIdAndUpdate` does not run the
`pre('save')` hook). -/
def applyFeeData (sid rid : Nat) (amount arrears : Int) (dueDate : SDate)
    (f : FeeRec) : FeeRec :=
  { f with student := sid, feeType := "tuition", amount := amount,
           dueDate := dueDate, status := "unpaid", arrears := arrears,
           recordedBy := rid }

/-- The document built by `Fee.create(feeData)` on the create path of
`createInitialFeeRecord`: the `feeData` fields plus the schema defaults
(`paidAmount` 0, `remainingAmount` defaulting to `this.amount`, a fresh
`_id`), passed through the `pre('save')` hook, which runs on `create`
with `status` explicitly set (to `'unpaid'`) and `paidAmount` left to its
schema default (not marked modified by Mongoose). -/
def newTuitionFee (sid rid : Nat) (amount : Int) (now : SDate)
    (fees : List FeeRec) : FeeRec :=
  feePreSave
    { id := freshFeeId fees, student := sid, feeType := "tuition",
      amount := amount, dueDate := endOfMonth now, paymentDate := none,
      status := "unpaid", paidAmount := 0, remainingAmount := amount,
      arrears := calculateStudentArrears now fees (some sid),
      recordedBy := rid } true false now

/-- Embedding of `createInitialFeeRecord` (fee.controller.js).  The fee
collection is passed in and the (result, new collection) pair is
returned.  `none` for `studentId` or `recordedById` models the falsy
guard `if (!studentId || !recordedById) return null`.  On the create
path, `Fee.create` runs the `pre('save')` hook with `status` explicitly
set (to `'unpaid'`) and `paidAmount` left to its schema default (which
Mongoose does not mark as modified); `remainingAmount` takes its schema
default `this.amount`. -/
def createInitialFeeRecord (studentId recordedById : Option Nat)
    (monthlyFeeAmount : Int) (now : SDate) (fees : List FeeRec) :
    Option FeeRec × List FeeRec :=
  match studentId, recordedById with
  | some sid, some rid =>
    let amount := monthlyFeeAmount
    let dueDate := endOfMonth now
    let arrears := calculateStudentArrears now fees (some sid)
    match fees.find? (tuitionThisMonth sid now) with
    | some existingFee =>
      let updated := applyFeeData sid rid amount arrears dueDate existingFee
      (some updated,
        fees.map (fun f => if f.id = existingFee.id then updated else f))
    | none =>
      let newFee := newTuitionFee sid rid amount now fees
      (some newFee, fees ++ [newFee])
  | _, _ => (none, fees)

/-! ### String helpers

The file-parsing code works on JavaScript strings; we embed the relevant
operations over `List Char` (obtained by `String.toList`) so that they
evaluate and admit list induction. -/

/-- Whitespace recognised by JavaScript `String.prototype.trim` (the
ASCII part, which is all the inputs at hand contain). -/
def isWsChar (c : Char) : Bool :=
  c = ' ' || c = '\t' || c = '\n' || c = '\r'

/-- JavaScript `String.prototype.trim` on a character list. -/
def trimChars (cs : List Char) : List Char :=
  ((cs.dropWhile isWsChar).reverse.dropWhile isWsChar).reverse

/-- Does `hay` contain `needle` as a contiguous substring
(JavaScript `String.prototype.includes`)? -/
def containsSub (needle : List Char) : List Char → Bool
  | [] => needle.isEmpty
  | c :: rest => needle.isPrefixOf (c :: rest) || containsSub needle rest

/-- Header-cell cleaning of `parseFile`
(`dashboard.controller.js`): falsy headers map to `''`; otherwise the
regex `/^([^(]+)/` captures the maximal nonempty prefix without `'('`,
which is trimmed; when the regex fails to match (text starting with
`'('`), the whole text is trimmed instead. -/
def cleanHeaderKey (s : String) : String :=
  if s = "" then ""
  else if (s.toList.takeWhile (fun c => c ≠ '(')).isEmpty then
    (trimChars s.toList).asString
  else (trimChars (s.toList.takeWhile (fun c => c ≠ '('))).asString

/-- The key the specification prescribes for a header cell: the substring
of the display text before its first parenthesis, trimmed.
Modelled from the spec for comparison with `cleanHeaderKey`. -/
def specHeaderKey (s : String) : String :=
  (trimChars (s.toList.takeWhile (fun c => c ≠ '('))).asString

/-- Header validation of `parseFile`: any empty cleaned header aborts
parsing with a fatal error before any data row is processed. -/
def checkHeaders (headers : List String) : Except String (List String) :=
  if (headers.map cleanHeaderKey).any (fun h => h = "") then
    Except.error "Empty column headers found. Please ensure all columns have headers."
  else Except.ok (headers.map cleanHeaderKey)

/-- Character loop of the CSV line splitter of `parseFile`.  `prev` is
`line[i-1]` (or `none` at `i = 0`), `inQuotes` the quoting state, `cur`
the current value accumulated in reverse.  A double quote not preceded by
a backslash toggles `inQuotes` (and is not appended); a comma outside
quotes ends the current value; every other character is appended. -/
def csvGo : List Char → Option Char → Bool → List Char → List (List Char)
  | [], _, _, cur => [cur.reverse]
  | c :: rest, prev, inQuotes, cur =>
    if c = '"' && (prev = none || prev ≠ some '\\') then
      csvGo rest (some c) (!inQuotes) cur
    else if c = ',' && !inQuotes then
      cur.reverse :: csvGo rest (some c) inQuotes []
    else
      csvGo rest (some c) inQuotes (c :: cur)

/-- Surrounding-quote removal applied to each split value
(`value.startsWith('"') && value.endsWith('"')` →
`value.substring(1, value.length - 1)`). -/
def stripQuotes (cs : List Char) : List Char :=
  if cs.head? = some '"' && cs.getLast? = some '"' then (cs.drop 1).dropLast
  else cs

/-- CSV line parsing of `parseFile`: split on unquoted commas, then strip
surrounding quotes from each value. -/
def parseCsvLine (line : String) : List String :=
  (csvGo line.toList none false []).map (fun v => (stripQuotes v).asString)

/-! ### Row filtering of `parseFile`

A parsed data row is a mapping from cleaned header name to cell value
(`ImportRow` of the spec); we model it as an association list. -/

/-- A parsed data row: header name to cell value. -/
abbrev Row := List (String × String)

/-- JavaScript property access `row[key]` with the source's falsy checks:
an absent key behaves like the empty string. -/
def getVal (row : Row) (k : String) : String :=
  ((row.find? (fun p => p.1 = k)).map Prod.snd).getD ""

/-- Does a cell value look like template instructions?
Source: `valueStr.toUpperCase().includes('IMPORTANT') || … 'NOTE' || … 'INSTRUCTION'`. -/
def instructionLike (v : String) : Bool :=
  let u := v.toList.map Char.toUpper
  containsSub "IMPORTANT".toList u || containsSub "NOTE".toList u ||
    containsSub "INSTRUCTION".toList u

/-- Row-retention test of `parseFile`: the row is kept iff (a) some value
is non-empty and not instruction-like (`!isEmpty`), and (b) at least one
of `firstName`/`lastName`/`email` has a non-empty value
(`requiredFieldCount > 0`). -/
def keepRow (row : Row) : Bool :=
  (row.any fun p => p.2 ≠ "" && !(instructionLike p.2)) &&
  (row.any fun p =>
    p.2 ≠ "" && (p.1 = "firstName" || p.1 = "lastName" || p.1 = "email"))

/-- Filtering loop over the raw data rows, remembering each kept row's
index among the raw data rows (`rawData[1..]`; raw index `k` is physical
file row `k + 2`, after the header row). -/
def filterRowsGo : List Row → Nat → List (Nat × Row)
  | [], _ => []
  | r :: rest, k =>
    if keepRow r then (k, r) :: filterRowsGo rest (k + 1)
    else filterRowsGo rest (k + 1)

/-- The data rows `parseFile` returns, paired with their raw indices. -/
def filterRows (rows : List Row) : List (Nat × Row) := filterRowsGo rows 0

/-- Number of raw data rows before raw index `k` that the filter drops. -/
def droppedBefore (rows : List Row) (k : Nat) : Nat :=
  (rows.take k).countP (fun r => !(keepRow r))

/-! ### Email validation

`isValidEmail` tests the regex `/^\w+([\.-]?\w+)*@\w+([\.-]?\w+)*(\.\w{2,3})+$/`.
We embed it as a backtracking matcher over character lists: a matcher
maps an input to the list of possible remainders (deduplicated — a
performance-only step that does not change the recognised language). -/

/-- Nondeterministic matcher: input suffix to possible remainders. -/
abbrev Matcher := List Char → List (List Char)

/-- Match one character satisfying `p` (a regex character class). -/
def chrClass (p : Char → Bool) : Matcher := fun cs =>
  match cs with
  | [] => []
  | c :: rest => if p c then [rest] else []

/-- Sequential composition of matchers. -/
def seqM (a b : Matcher) : Matcher := fun cs => ((a cs).flatMap b).dedup

/-- Zero-or-one repetition (regex `?`). -/
def optM (a : Matcher) : Matcher := fun cs => (cs :: a cs).dedup

/-- Zero-or-more repetition (regex `*`).  `fuel` bounds the number of
iterations; every repetition at hand consumes at least one character, so
fuel `length + 1` is exhaustive. -/
def starM (a : Matcher) : Nat → Matcher
  | 0 => fun cs => [cs]
  | fuel + 1 => fun cs => (cs :: (a cs).flatMap (starM a fuel)).dedup

/-- One-or-more repetition (regex `+`). -/
def plusM (a : Matcher) (fuel : Nat) : Matcher := seqM a (starM a fuel)

/-- Regex `\w`: `[A-Za-z0-9_]`. -/
def isWordChar (c : Char) : Bool := c.isAlphanum || c = '_'

/-- Regex `[\.-]`. -/
def isSepChar (c : Char) : Bool := c = '.' || c = '-'

/-- Embedding of `isValidEmail` (dashboard.controller.js): full-string
match of `/^\w+([\.-]?\w+)*@\w+([\.-]?\w+)*(\.\w{2,3})+$/`. -/
def isValidEmail (s : String) : Bool :=
  let cs := s.toList
  let n := cs.length + 1
  let w := chrClass isWordChar
  let word := plusM w n
  let grp := seqM (optM (chrClass isSepChar)) word
  let part := seqM word (starM grp n)
  let w23 := seqM (seqM w w) (optM w)
  let tld := seqM (chrClass (fun c => c = '.')) w23
  let whole :=
    seqM (seqM (seqM part (chrClass (fun c => c = '@'))) part) (plusM tld n)
  (whole cs).any List.isEmpty

/-! ### Accounts, profiles and the import database -/

/-- An account of the `User` collection (claim-relevant fields). -/
structure User where
  id : Nat
  firstName : String
  lastName : String
  email : String
  role : String
deriving DecidableEq, Repr

/-- A `Student` profile (claim-relevant fields; `className` and
`sectionName` rename the source fields `class` and `section`, both Lean
keywords). -/
structure StudentProfile where
  id : Nat
  user : Nat
  rollNumber : String
  gender : String
  className : String
  sectionName : String
  monthlyFee : Int
deriving DecidableEq, Repr

/-- An `AdminStaff` / `SupportStaff` profile (claim-relevant fields). -/
structure StaffProfile where
  user : Nat
  employeeId : String
deriving DecidableEq, Repr

/-- The collections the import pipeline reads and writes. -/
structure Db where
  users : List User
  students : List StudentProfile
  adminStaff : List StaffProfile
  supportStaff : List StaffProfile
  fees : List FeeRec
deriving DecidableEq, Repr

/-- Source check `await User.findOne({ email })` used for uniqueness. -/
def emailTaken (users : List User) (e : String) : Bool :=
  users.any (fun u => u.email = e)

/-- Lowercase letter or digit: the characters kept by
`.toLowerCase().replace(/[^a-z0-9]/g, '')`. -/
def lcAlnum (c : Char) : Bool :=
  ('a' ≤ c && c ≤ 'z') || ('0' ≤ c && c ≤ '9')

/-- Name cleaning for generated student emails:
`name.toLowerCase().replace(/[^a-z0-9]/g, '')` as a character list. -/
def cleanNameChars (s : String) : List Char :=
  (s.toList.map Char.toLower).filter lcAlnum

/-- `cleanNameChars` packaged as a string. -/
def cleanName (s : String) : String := (cleanNameChars s).asString

/-- Split a character list on a separator character
(JavaScript `String.prototype.split` with a single-character separator). -/
def splitOnChar (c : Char) : List Char → List (List Char)
  | [] => [[]]
  | x :: xs =>
    if x = c then [] :: splitOnChar c xs
    else
      match splitOnChar c xs with
      | [] => [[x]]
      | y :: ys => (x :: y) :: ys

/-- Digits of a natural number (`${counter}` interpolation). -/
def natChars (n : Nat) : List Char := (toString n).toList

/-- Collision loop of the student/teacher email generation: starting at
`counter = 1`, try `${basePart}${counter}@${domainPart}` until the email
is not taken.  `fuel` bounds the search; `users.length + 1` candidates
cannot all collide with distinct existing emails, so the bound is never
reached on the source's inputs. -/
def genLoop (users : List User) (basePart domainPart : List Char) :
    Nat → Nat → List Char
  | counter, 0 => basePart ++ natChars counter ++ '@' :: domainPart
  | counter, fuel + 1 =>
    let cand := basePart ++ natChars counter ++ '@' :: domainPart
    if emailTaken users cand.asString then
      genLoop users basePart domainPart (counter + 1) fuel
    else cand

/-- The synthetic student email before collision handling:
`std${cleanFirstName}${cleanLastName}@schoolms.com`. -/
def emailBaseChars (first lastName : String) : List Char :=
  "std".toList ++ cleanNameChars first ++ cleanNameChars lastName ++
    "@schoolms.com".toList

/-- The synthetic student email with numeric suffix `n` appended to the
local part (the shape produced by the collision loop). -/
def emailSuffixChars (first lastName : String) (n : Nat) : List Char :=
  ("std".toList ++ cleanNameChars first ++ cleanNameChars lastName) ++
    natChars n ++ '@' :: "schoolms.com".toList

/-- Student email auto-generation of `uploadStudents`: build the
synthetic email from the cleaned names; on collision, split it at `'@'`
and search for a free numeric suffix. -/
def genStudentEmail (users : List User) (first lastName : String) : String :=
  let generatedEmail := emailBaseChars first lastName
  if emailTaken users generatedEmail.asString then
    let emailParts := splitOnChar '@' generatedEmail
    let basePart := emailParts.headD []
    let domainPart := (emailParts.drop 1).headD []
    (genLoop users basePart domainPart 1 (users.length + 1)).asString
  else generatedEmail.asString

/-- JavaScript `parseFloat` restricted to its integer part (the source
uses the parsed numbers only in comparisons with 0 and as fee amounts;
fractional digits are not claim-relevant).  Returns `none` for `NaN`. -/
def jsParseFloatInt (s : String) : Option Int :=
  let cs := s.toList.dropWhile isWsChar
  let signed : Bool × List Char :=
    match cs with
    | '-' :: r => (true, r)
    | '+' :: r => (false, r)
    | r => (false, r)
  let ds := signed.2.takeWhile Char.isDigit
  if ds.isEmpty then none
  else
    let v : Nat := ds.foldl (fun a c => a * 10 + (c.toNat - '0'.toNat)) 0
    some (if signed.1 then -(v : Int) else (v : Int))

/-- JavaScript `toLowerCase` (ASCII). -/
def strToLower (s : String) : String := (s.toList.map Char.toLower).asString

/-- List-level `String.prototype.startsWith`. -/
def strStartsWith (pre s : String) : Bool := pre.toList.isPrefixOf s.toList

/-- List-level `String.prototype.endsWith`. -/
def strEndsWith (suf s : String) : Bool :=
  suf.toList.reverse.isPrefixOf s.toList.reverse

/-! ### Per-row processing of the importers -/

/-- Required fields of a student row (email is auto-generated). -/
def requiredStudentFields : List String :=
  ["firstName", "lastName", "rollNumber", "class", "section", "gender",
   "monthlyFee", "fatherName", "motherName", "contactNumber"]

/-- Email auto-generation trigger of `uploadStudents`:
`!student.email || !student.email.startsWith('std') || !student.email.endsWith('@schoolms.com')`. -/
def autoGenCond (row : Row) : Bool :=
  getVal row "email" = "" ||
    !(strStartsWith "std" (getVal row "email")) ||
    !(strEndsWith "@schoolms.com" (getVal row "email"))

/-- One iteration of the `uploadStudents` row loop (the body of the
per-row `try`): field validation, email resolution, roll-number
uniqueness, then account + profile creation and, when the monthly fee is
positive, seeding of the initial tuition fee record (whose own failure
cannot occur in the model and never fails the row in the source). -/
def processStudentRow (uploader : Nat) (now : SDate) (db : Db) (row : Row) :
    Except String Db :=
  let missingFields := requiredStudentFields.filter (fun f => getVal row f = "")
  if !missingFields.isEmpty then
    Except.error ("Missing required fields: " ++ String.intercalate ", " missingFields)
  else
    let emailRes : Except String String :=
      if autoGenCond row then
        Except.ok (genStudentEmail db.users (getVal row "firstName")
          (getVal row "lastName"))
      else if !(isValidEmail (getVal row "email")) then
        Except.error "Invalid email format"
      else if emailTaken db.users (getVal row "email") then
        Except.error "Email already exists"
      else Except.ok (getVal row "email")
    match emailRes with
    | Except.error m => Except.error m
    | Except.ok email =>
      if db.students.any (fun s => s.rollNumber = getVal row "rollNumber") then
        Except.error "Roll number already exists"
      else
        let uid := db.users.length + 1
        let user : User :=
          { id := uid, firstName := getVal row "firstName",
            lastName := getVal row "lastName", email := email,
            role := "student" }
        let monthlyFee := (jsParseFloatInt (getVal row "monthlyFee")).getD 0
        let sid := db.students.length + 1
        let studentP : StudentProfile :=
          { id := sid, user := uid, rollNumber := getVal row "rollNumber",
            gender := strToLower (getVal row "gender"),
            className := getVal row "class",
            sectionName := getVal row "section", monthlyFee := monthlyFee }
        let fees' :=
          if 0 < monthlyFee then
            (createInitialFeeRecord (some sid) (some uploader) monthlyFee now
              db.fees).2
          else db.fees
        Except.ok { db with users := db.users ++ [user],
                            students := db.students ++ [studentP],
                            fees := fees' }

/-- Required fields of an admin-staff row. -/
def requiredAdminFields : List String :=
  ["firstName", "lastName", "email", "employeeId", "phoneNumber",
   "qualification", "experience", "position", "department", "gender",
   "salary"]

/-- One iteration of the `uploadAdminStaff` row loop: supplied email and
employee ID are validated for uniqueness; nothing is auto-generated. -/
def processAdminRow (db : Db) (row : Row) : Except String Db :=
  if requiredAdminFields.any (fun f => getVal row f = "") then
    Except.error "Missing required fields"
  else if !(isValidEmail (getVal row "email")) then
    Except.error "Invalid email format"
  else if emailTaken db.users (getVal row "email") then
    Except.error "Email already exists"
  else if db.adminStaff.any (fun p => p.employeeId = getVal row "employeeId") then
    Except.error "Employee ID already exists"
  else
    let uid := db.users.length + 1
    let user : User :=
      { id := uid, firstName := getVal row "firstName",
        lastName := getVal row "lastName", email := getVal row "email",
        role := if getVal row "role" = "" then "admin" else getVal row "role" }
    Except.ok { db with users := db.users ++ [user],
                        adminStaff := db.adminStaff ++
                          [{ user := uid, employeeId := getVal row "employeeId" }] }

/-- Required fields of a support-staff row. -/
def requiredSupportFields : List String :=
  ["firstName", "lastName", "email", "employeeId", "phoneNumber",
   "position", "experience", "gender", "salary"]

/-- One iteration of the `uploadSupportStaff` row loop. -/
def processSupportRow (db : Db) (row : Row) : Except String Db :=
  if requiredSupportFields.any (fun f => getVal row f = "") then
    Except.error "Missing required fields"
  else if !(isValidEmail (getVal row "email")) then
    Except.error "Invalid email format"
  else if emailTaken db.users (getVal row "email") then
    Except.error "Email already exists"
  else if db.supportStaff.any (fun p => p.employeeId = getVal row "employeeId") then
    Except.error "Employee ID already exists"
  else
    let uid := db.users.length + 1
    let user : User :=
      { id := uid, firstName := getVal row "firstName",
        lastName := getVal row "lastName", email := getVal row "email",
        role := "support-staff" }
    Except.ok { db with users := db.users ++ [user],
                        supportStaff := db.supportStaff ++
                          [{ user := uid, employeeId := getVal row "employeeId" }] }

/-! ### The batch loop and its accounting -/

/-- One entry of the per-row failure report: `{row: rowNum, message}`. -/
structure ErrEntry where
  row : Nat
  message : String
deriving DecidableEq, Repr

/-- Aggregate counts of one import invocation (the spec's ImportResult). -/
structure ImportAcc where
  total : Nat
  successCount : Nat
  errorCount : Nat
  errors : List ErrEntry
deriving DecidableEq, Repr

/-- The row loop shared by the four importers: each row is processed
independently; a failure is recorded as `{row: i + 2, message}` (1-indexed
plus the header row) and the batch continues.  `idx` is the loop index of
the first row of the remaining list.  Also returns the final database. -/
def runImport (step : Db → Row → Except String Db) :
    Db → List Row → Nat → ImportAcc × Db
  | db, [], _ => (⟨0, 0, 0, []⟩, db)
  | db, r :: rest, idx =>
    match step db r with
    | Except.ok db2 =>
      let res := runImport step db2 rest (idx + 1)
      ({ res.1 with total := res.1.total + 1,
                    successCount := res.1.successCount + 1 }, res.2)
    | Except.error m =>
      let res := runImport step db rest (idx + 1)
      ({ res.1 with total := res.1.total + 1,
                    errorCount := res.1.errorCount + 1,
                    errors := ⟨idx + 2, m⟩ :: res.1.errors }, res.2)

/-- Import-history status derivation shared by the four importers:
`errorCount === 0 ? 'success' : (successCount > 0 ? 'partial' : 'failed')`. -/
def deriveStatus (successCount errorCount : Nat) : String :=
  if errorCount = 0 then "success"
  else if 0 < successCount then "partial" else "failed"

/-- The `uploadStudents` batch over already-parsed rows. -/
def uploadStudentsCore (uploader : Nat) (now : SDate) (db : Db)
    (rows : List Row) : ImportAcc × Db :=
  runImport (processStudentRow uploader now) db rows 0

/-- The `uploadAdminStaff` row loop over a row list (lines 1133–1218 of
dashboard.controller.js), as it would run on the parsed rows. -/
def uploadAdminStaffCore (db : Db) (rows : List Row) : ImportAcc × Db :=
  runImport (fun d r => processAdminRow d r) db rows 0

/-- The `uploadSupportStaff` row loop over a row list. -/
def uploadSupportStaffCore (db : Db) (rows : List Row) : ImportAcc × Db :=
  runImport (fun d r => processSupportRow d r) db rows 0

/-- Observable outcome of one upload request: the response counts and the
status written to the `UploadHistory` record. -/
structure UploadResponse where
  totalRecords : Option Nat
  successCount : Nat
  errorCount : Nat
  errors : List ErrEntry
  historyStatus : String
deriving DecidableEq, Repr

/-- What `uploadAdminStaff` actually does with a parsed file: the source
reads `const adminStaffList = parseFile(filePath)` WITHOUT `await`, so
`adminStaffList` is a promise, `adminStaffList.length` is `undefined`
(modelled `none`), the `totalRecords === 0` guard does not fire, the row
loop `i < adminStaffList.length` never runs, and an upload-history record
with status `deriveStatus 0 0 = 'success'` and zero counts is persisted
regardless of the file's rows. -/
def uploadAdminStaffActual (db : Db) (fileRows : List Row) : UploadResponse :=
  let _ := (db, fileRows)
  { totalRecords := none, successCount := 0, errorCount := 0, errors := [],
    historyStatus := deriveStatus 0 0 }

/-- Same missing `await` in `uploadSupportStaff`
(`const supportStaffList = parseFile(filePath)`). -/
def uploadSupportStaffActual (db : Db) (fileRows : List Row) : UploadResponse :=
  let _ := (db, fileRows)
  { totalRecords := none, successCount := 0, errorCount := 0, errors := [],
    historyStatus := deriveStatus 0 0 }

/-! ## Claim theorems -/

theorem applyOverdue_paidAmount (g : FeeRec) (now : SDate) :
    (applyOverdue g now).paidAmount = g.paidAmount := by
  unfold applyOverdue; split <;> rfl

theorem applyOverdue_remainingAmount (g : FeeRec) (now : SDate) :
    (applyOverdue g now).remainingAmount = g.remainingAmount := by
  unfold applyOverdue; split <;> rfl

theorem applyOverdue_student (g : FeeRec) (now : SDate) :
    (applyOverdue g now).student = g.student := by
  unfold applyOverdue; split <;> rfl

theorem applyOverdue_feeType (g : FeeRec) (now : SDate) :
    (applyOverdue g now).feeType = g.feeType := by
  unfold applyOverdue; split <;> rfl

theorem applyOverdue_dueDate (g : FeeRec) (now : SDate) :
    (applyOverdue g now).dueDate = g.dueDate := by
  unfold applyOverdue; split <;> rfl

/-- C1: on a save where `paidAmount` was modified (and status was not
explicitly set to `'paid'`), the hook sets
`remainingAmount = amount - paidAmount` and derives the status
(`unpaid` at 0, `partial` strictly between, `paid` at or above `amount`
with `paymentDate` defaulted to now), after which a non-paid record with
a past due date becomes `overdue`; and on a save where status was
explicitly set to `'paid'`, the hook forces `paidAmount = amount`,
`remainingAmount = 0`, keeps status `'paid'` and defaults `paymentDate`. -/
theorem fee_presave_status_derivation (f : FeeRec) (modStatus modPaid : Bool)
    (now : SDate) :
    (modPaid = true → ¬(modStatus = true ∧ f.status = "paid") →
      (feePreSave f modStatus modPaid now).remainingAmount =
          f.amount - f.paidAmount ∧
      (f.paidAmount = 0 →
        (feePreSave f modStatus modPaid now).status =
          (if dateLt f.dueDate now then "overdue" else "unpaid")) ∧
      (0 < f.paidAmount → f.paidAmount < f.amount →
        (feePreSave f modStatus modPaid now).status =
          (if dateLt f.dueDate now then "overdue" else "partial")) ∧
      (f.paidAmount ≠ 0 → f.amount ≤ f.paidAmount →
        (feePreSave f modStatus modPaid now).status = "paid" ∧
        (feePreSave f modStatus modPaid now).paymentDate =
          some (f.paymentDate.getD now))) ∧
    (modStatus = true → f.status = "paid" →
      (feePreSave f modStatus modPaid now).paidAmount = f.amount ∧
      (feePreSave f modStatus modPaid now).remainingAmount = 0) := by
  constructor
  · intro h1 h2
    subst h1
    have hst : (modStatus && decide (f.status = "paid")) = false := by
      cases modStatus
      · rfl
      · simp only [Bool.true_and, decide_eq_false_iff_not]
        intro hp; exact h2 ⟨rfl, hp⟩
    refine ⟨?_, ?_, ?_, ?_⟩
    · by_cases hp0 : f.paidAmount = 0
      · simp [feePreSave, hst, applyOverdue, hp0]
        split <;> simp
      · by_cases hplt : f.paidAmount < f.amount
        · simp [feePreSave, hst, applyOverdue, hp0, hplt]
          split <;> simp
        · simp [feePreSave, hst, applyOverdue, hp0, hplt]
    · intro hp0
      simp [feePreSave, hst, applyOverdue, hp0]
      split <;> rfl
    · intro hppos hplt
      have hp0 : ¬ f.paidAmount = 0 := by omega
      simp [feePreSave, hst, applyOverdue, hp0, hplt]
      split <;> rfl
    · intro hpne hple
      have hplt : ¬ f.paidAmount < f.amount := by omega
      simp [feePreSave, hst, applyOverdue, hpne, hplt]
  · intro hs hp
    subst hs
    refine ⟨?_, ?_⟩
    · simp only [feePreSave, hp, applyOverdue_paidAmount]
      simp
      repeat' split
      all_goals rfl
    · simp only [feePreSave, hp, applyOverdue_remainingAmount]
      simp
      repeat' split
      all_goals rfl

/-- Witness for C1: a record of amount 1000 with `paidAmount` modified to
400 gets `remainingAmount = 600` and, its due date being in the future,
status `'partial'`. -/
theorem fee_presave_status_derivation_witness :
    (feePreSave ⟨1, 7, "tuition", 1000, ⟨2025, 6, 30⟩, none, "unpaid", 400, 600, 0, 9⟩
        false true ⟨2025, 5, 15⟩).remainingAmount = 1000 - 400 ∧
    (feePreSave ⟨1, 7, "tuition", 1000, ⟨2025, 6, 30⟩, none, "unpaid", 400, 600, 0, 9⟩
        false true ⟨2025, 5, 15⟩).status = "partial" := by
  have h := (fee_presave_status_derivation
    ⟨1, 7, "tuition", 1000, ⟨2025, 6, 30⟩, none, "unpaid", 400, 600, 0, 9⟩
    false true ⟨2025, 5, 15⟩).1 rfl (by simp)
  exact ⟨h.1, by decide⟩

/-- Counterexample to C7 as stated: a record whose status is explicitly
set to `'paid'` but whose `amount` is 0 while its stored `paidAmount` is
nonzero is pushed back through the `paidAmount` branch (the hook's
assignment `paidAmount = amount` marks the path modified), reclassified
`'unpaid'`, and then — its due date being past — `'overdue'`: the
explicit `'paid'` does not win over the overdue check. -/
theorem fee_overdue_paid_precedence_cex :
    (feePreSave ⟨1, 7, "tuition", 0, ⟨2025, 0, 31⟩, none, "paid", 50, 0, 0, 9⟩
        true false ⟨2025, 5, 15⟩).status = "overdue" := by decide

/-- C7 amended: (a) the overdue clause never changes a record whose
status is `'paid'` when the clause runs; (b) an explicit `'paid'` wins
over the overdue check whenever `amount ≠ 0`, or when `paidAmount`
already equals `amount` and `paidAmount` was not itself modified; (c) a
record already `'overdue'` is untouched by a save that modifies neither
`paidAmount` nor `status`. -/
theorem fee_overdue_paid_precedence (f : FeeRec) (modStatus modPaid : Bool)
    (now : SDate) :
    (∀ g : FeeRec, g.status = "paid" → applyOverdue g now = g) ∧
    (modStatus = true → f.status = "paid" →
      (f.amount ≠ 0 ∨ (modPaid = false ∧ f.paidAmount = f.amount)) →
      (feePreSave f modStatus modPaid now).status = "paid") ∧
    (f.status = "overdue" → modStatus = false → modPaid = false →
      feePreSave f modStatus modPaid now = f) := by
  refine ⟨?_, ?_, ?_⟩
  · intro g hg
    unfold applyOverdue
    simp [hg]
  · intro hs hp hcase
    subst hs
    rcases hcase with ha | ⟨hmp, heq⟩
    · simp [feePreSave, applyOverdue, hp, ha]
    · subst hmp
      simp [feePreSave, applyOverdue, hp, heq]
  · intro ho hms hmp
    subst hms; subst hmp
    simp [feePreSave, applyOverdue, ho]

/-- Witness for the amended C7: an explicit `'paid'` on a 1000-amount
record with a past due date stays `'paid'`, and an `'overdue'` record is
unchanged by a save modifying neither `paidAmount` nor `status`. -/
theorem fee_overdue_paid_precedence_witness :
    (feePreSave ⟨1, 7, "tuition", 1000, ⟨2025, 0, 31⟩, none, "paid", 0, 1000, 0, 9⟩
        true false ⟨2025, 5, 15⟩).status = "paid" ∧
    feePreSave ⟨2, 7, "tuition", 1000, ⟨2025, 0, 31⟩, none, "overdue", 0, 1000, 0, 9⟩
        false false ⟨2025, 5, 15⟩ =
      ⟨2, 7, "tuition", 1000, ⟨2025, 0, 31⟩, none, "overdue", 0, 1000, 0, 9⟩ := by
  constructor
  · exact (fee_overdue_paid_precedence
      ⟨1, 7, "tuition", 1000, ⟨2025, 0, 31⟩, none, "paid", 0, 1000, 0, 9⟩
      true false ⟨2025, 5, 15⟩).2.1 rfl rfl (Or.inl (by norm_num))
  · exact (fee_overdue_paid_precedence
      ⟨2, 7, "tuition", 1000, ⟨2025, 0, 31⟩, none, "overdue", 0, 1000, 0, 9⟩
      false false ⟨2025, 5, 15⟩).2.2 rfl rfl rfl

theorem foldl_add_map_sum {α : Type} (g : α → Int) (l : List α) (a : Int) :
    l.foldl (fun acc x => acc + g x) a = a + (l.map g).sum := by
  induction l generalizing a with
  | nil => simp
  | cons x xs ih => simp [List.foldl_cons, ih, add_assoc]

/-- C3: outside the hard-coded cutover month, `calculateStudentArrears`
returns the sum, over the student's fee records due strictly before the
first day of the current month with status unpaid/partial/overdue, of
the remaining amount for partial records and the full amount otherwise;
it returns 0 when no record qualifies; and during May 2025 (month index
4) it returns 0 unconditionally. -/
theorem arrears_characterisation (now : SDate) (fees : List FeeRec) (sid : Nat) :
    (¬(now.month = 4 ∧ now.year = 2025) →
      calculateStudentArrears now fees (some sid) =
        ((fees.filter (fun f => f.student = sid &&
            dateLt f.dueDate ⟨now.year, now.month, 1⟩ &&
            (f.status = "unpaid" || f.status = "partial" ||
              f.status = "overdue"))).map
          (fun f => if f.status = "partial" then f.remainingAmount
                    else f.amount)).sum) ∧
    (now.month = 4 → now.year = 2025 →
      calculateStudentArrears now fees (some sid) = 0) ∧
    (fees.filter (qualifiesArrears sid (startOfMonth now)) = [] →
      calculateStudentArrears now fees (some sid) = 0) := by
  refine ⟨?_, ?_, ?_⟩
  · intro h
    have hb : (now.month = 4 && now.year = 2025) = false := by
      by_cases h4 : now.month = 4
      · by_cases h5 : now.year = 2025
        · exact absurd ⟨h4, h5⟩ h
        · simp [h4, h5]
      · simp [h4]
    simp only [calculateStudentArrears, hb, Bool.false_eq_true, if_false]
    rw [foldl_add_map_sum]
    simp only [zero_add]
    rfl
  · intro h4 h5
    simp [calculateStudentArrears, h4, h5]
  · intro hempty
    simp only [calculateStudentArrears]
    split
    · rfl
    · rw [hempty]
      rfl

/-- Witness for C3: one prior-month unpaid fee of 500 and one partial fee
with 200 remaining give arrears 700 in June 2025; a fee due inside the
current month is excluded. -/
theorem arrears_characterisation_witness :
    calculateStudentArrears ⟨2025, 5, 15⟩
        [⟨1, 7, "tuition", 500, ⟨2025, 4, 31⟩, none, "unpaid", 0, 500, 0, 9⟩,
         ⟨2, 7, "tuition", 1000, ⟨2025, 4, 31⟩, none, "partial", 800, 200, 0, 9⟩,
         ⟨3, 7, "tuition", 900, ⟨2025, 5, 30⟩, none, "unpaid", 0, 900, 0, 9⟩]
        (some 7) =
      ((([⟨1, 7, "tuition", 500, ⟨2025, 4, 31⟩, none, "unpaid", 0, 500, 0, 9⟩,
          ⟨2, 7, "tuition", 1000, ⟨2025, 4, 31⟩, none, "partial", 800, 200, 0, 9⟩,
          ⟨3, 7, "tuition", 900, ⟨2025, 5, 30⟩, none, "unpaid", 0, 900, 0, 9⟩] :
           List FeeRec).filter (fun f => f.student = 7 &&
             dateLt f.dueDate ⟨2025, 5, 1⟩ &&
             (f.status = "unpaid" || f.status = "partial" ||
               f.status = "overdue"))).map
         (fun f => if f.status = "partial" then f.remainingAmount
                   else f.amount)).sum ∧
    calculateStudentArrears ⟨2025, 5, 15⟩
        [⟨1, 7, "tuition", 500, ⟨2025, 4, 31⟩, none, "unpaid", 0, 500, 0, 9⟩,
         ⟨2, 7, "tuition", 1000, ⟨2025, 4, 31⟩, none, "partial", 800, 200, 0, 9⟩,
         ⟨3, 7, "tuition", 900, ⟨2025, 5, 30⟩, none, "unpaid", 0, 900, 0, 9⟩]
        (some 7) = 700 := by
  constructor
  · exact (arrears_characterisation ⟨2025, 5, 15⟩
      [⟨1, 7, "tuition", 500, ⟨2025, 4, 31⟩, none, "unpaid", 0, 500, 0, 9⟩,
       ⟨2, 7, "tuition", 1000, ⟨2025, 4, 31⟩, none, "partial", 800, 200, 0, 9⟩,
       ⟨3, 7, "tuition", 900, ⟨2025, 5, 30⟩, none, "unpaid", 0, 900, 0, 9⟩]
      7).1 (by decide)
  · decide

theorem applyOverdue_id (g : FeeRec) (now : SDate) :
    (applyOverdue g now).id = g.id := by
  unfold applyOverdue; split <;> rfl

theorem feePreSave_id (f : FeeRec) (ms mp : Bool) (now : SDate) :
    (feePreSave f ms mp now).id = f.id := by
  simp only [feePreSave, applyOverdue_id]
  repeat' split
  all_goals rfl

theorem feePreSave_student (f : FeeRec) (ms mp : Bool) (now : SDate) :
    (feePreSave f ms mp now).student = f.student := by
  simp only [feePreSave, applyOverdue_student]
  repeat' split
  all_goals rfl

theorem feePreSave_feeType (f : FeeRec) (ms mp : Bool) (now : SDate) :
    (feePreSave f ms mp now).feeType = f.feeType := by
  simp only [feePreSave, applyOverdue_feeType]
  repeat' split
  all_goals rfl

theorem feePreSave_dueDate (f : FeeRec) (ms mp : Bool) (now : SDate) :
    (feePreSave f ms mp now).dueDate = f.dueDate := by
  simp only [feePreSave, applyOverdue_dueDate]
  repeat' split
  all_goals rfl

theorem dateLe_refl (d : SDate) : dateLe d d = true := by
  simp [dateLe]

theorem dateLe_start_end (now : SDate) :
    dateLe (startOfMonth now) (endOfMonth now) = true := by
  have h := daysInMonth_pos now.year now.month
  rcases Nat.lt_or_ge 1 (daysInMonth now.year now.month) with h1 | h1
  · simp [dateLe, dateLt, startOfMonth, endOfMonth, h1]
  · have : daysInMonth now.year now.month = 1 := by omega
    simp [dateLe, dateLt, startOfMonth, endOfMonth, this]

theorem map_id_of_fixed {α : Type} (g : α → α) :
    ∀ l : List α, (∀ x ∈ l, g x = x) → l.map g = l := by
  intro l
  induction l with
  | nil => intro _; rfl
  | cons x xs ih =>
    intro h
    simp only [List.map_cons]
    rw [h x (List.mem_cons_self x xs), ih (fun y hy => h y (List.mem_cons_of_mem x hy))]

theorem find?_append_of_none {α : Type} (p : α → Bool) (l1 l2 : List α)
    (h : l1.find? p = none) : (l1 ++ l2).find? p = l2.find? p := by
  induction l1 with
  | nil => rfl
  | cons x xs ih =>
    cases hx : p x
    · rw [List.cons_append]
      rw [List.find?_cons] at h ⊢
      simp only [hx] at h ⊢
      exact ih h
    · rw [List.find?_cons] at h
      simp [hx] at h

theorem foldl_max_init (fees : List FeeRec) (a : Nat) :
    a ≤ fees.foldl (fun b f => max b f.id) a := by
  induction fees generalizing a with
  | nil => exact Nat.le_refl a
  | cons x xs ih =>
    exact Nat.le_trans (Nat.le_max_left a x.id) (ih (max a x.id))

theorem mem_le_foldl_max (fees : List FeeRec) (a : Nat) (f : FeeRec)
    (hf : f ∈ fees) : f.id ≤ fees.foldl (fun b g => max b g.id) a := by
  induction fees generalizing a with
  | nil => cases hf
  | cons x xs ih =>
    rcases List.mem_cons.mp hf with h | h
    · subst h
      exact Nat.le_trans (Nat.le_max_right a f.id) (foldl_max_init xs (max a f.id))
    · exact ih (max a x.id) h

theorem mem_lt_freshFeeId (fees : List FeeRec) (f : FeeRec) (hf : f ∈ fees) :
    f.id < freshFeeId fees := by
  have := mem_le_foldl_max fees 0 f hf
  unfold freshFeeId maxFeeId
  omega

theorem tuitionThisMonth_newTuitionFee (sid rid : Nat) (a : Int)
    (now : SDate) (fees : List FeeRec) :
    tuitionThisMonth sid now (newTuitionFee sid rid a now fees) = true := by
  unfold tuitionThisMonth newTuitionFee
  rw [feePreSave_student, feePreSave_feeType, feePreSave_dueDate]
  simp [dateLe_refl, dateLe_start_end]

/-- C6: `createInitialFeeRecord` returns `null` when `studentId` or
`recordedById` is absent; and it is idempotent per student and month —
when the student has no tuition fee due in the current month, the first
call creates exactly one and the second call finds and updates that
record in place, leaving a single tuition record for the month and the
collection's size unchanged. -/
theorem createInitialFeeRecord_idempotent (sid rid : Nat) (a : Int)
    (now : SDate) (fees : List FeeRec) :
    (∀ (r : Option Nat) (m : Int),
      createInitialFeeRecord none r m now fees = (none, fees)) ∧
    (∀ (m : Int),
      createInitialFeeRecord (some sid) none m now fees = (none, fees)) ∧
    (fees.countP (tuitionThisMonth sid now) = 0 →
      (createInitialFeeRecord (some sid) (some rid) a now fees).2.countP
          (tuitionThisMonth sid now) = 1 ∧
      (createInitialFeeRecord (some sid) (some rid) a now
          (createInitialFeeRecord (some sid) (some rid) a now fees).2).2.countP
          (tuitionThisMonth sid now) = 1 ∧
      (createInitialFeeRecord (some sid) (some rid) a now
          (createInitialFeeRecord (some sid) (some rid) a now fees).2).2.length =
        (createInitialFeeRecord (some sid) (some rid) a now fees).2.length) := by
  refine ⟨?_, ?_, ?_⟩
  · intro r m; cases r <;> rfl
  · intro m; rfl
  · intro h0
    have hforall := List.countP_eq_zero.mp h0
    have hnone : fees.find? (tuitionThisMonth sid now) = none :=
      List.find?_eq_none.mpr hforall
    have hprednew := tuitionThisMonth_newTuitionFee sid rid a now fees
    have e1 : createInitialFeeRecord (some sid) (some rid) a now fees =
        (some (newTuitionFee sid rid a now fees),
         fees ++ [newTuitionFee sid rid a now fees]) := by
      simp only [createInitialFeeRecord, hnone]
    have hc1 : (fees ++ [newTuitionFee sid rid a now fees]).countP
        (tuitionThisMonth sid now) = 1 := by
      rw [List.countP_append]
      simp [h0, List.countP_cons, hprednew]
    have hfind1 : (fees ++ [newTuitionFee sid rid a now fees]).find?
        (tuitionThisMonth sid now) = some (newTuitionFee sid rid a now fees) := by
      rw [find?_append_of_none _ _ _ hnone]
      simp [List.find?_cons, hprednew]
    have e2 : createInitialFeeRecord (some sid) (some rid) a now
        (fees ++ [newTuitionFee sid rid a now fees]) =
        (some (applyFeeData sid rid a
          (calculateStudentArrears now
            (fees ++ [newTuitionFee sid rid a now fees]) (some sid))
          (endOfMonth now) (newTuitionFee sid rid a now fees)),
         (fees ++ [newTuitionFee sid rid a now fees]).map
           (fun f => if f.id = (newTuitionFee sid rid a now fees).id then
             applyFeeData sid rid a
               (calculateStudentArrears now
                 (fees ++ [newTuitionFee sid rid a now fees]) (some sid))
               (endOfMonth now) (newTuitionFee sid rid a now fees)
           else f)) := by
      simp only [createInitialFeeRecord, hfind1]
    have hmap : (fees ++ [newTuitionFee sid rid a now fees]).map
        (fun f => if f.id = (newTuitionFee sid rid a now fees).id then
          applyFeeData sid rid a
            (calculateStudentArrears now
              (fees ++ [newTuitionFee sid rid a now fees]) (some sid))
            (endOfMonth now) (newTuitionFee sid rid a now fees)
        else f) =
        fees ++ [applyFeeData sid rid a
          (calculateStudentArrears now
            (fees ++ [newTuitionFee sid rid a now fees]) (some sid))
          (endOfMonth now) (newTuitionFee sid rid a now fees)] := by
      rw [List.map_append]
      congr 1
      · apply map_id_of_fixed
        intro x hx
        have hlt := mem_lt_freshFeeId fees x hx
        have hnfid : (newTuitionFee sid rid a now fees).id = freshFeeId fees := by
          unfold newTuitionFee
          rw [feePreSave_id]
        rw [if_neg]
        intro heq
        rw [hnfid] at heq
        omega
      · simp
    have hpredupd : tuitionThisMonth sid now
        (applyFeeData sid rid a
          (calculateStudentArrears now
            (fees ++ [newTuitionFee sid rid a now fees]) (some sid))
          (endOfMonth now) (newTuitionFee sid rid a now fees)) = true := by
      unfold tuitionThisMonth applyFeeData
      simp [dateLe_refl, dateLe_start_end]
    refine ⟨?_, ?_, ?_⟩
    · rw [e1]
      exact hc1
    · rw [e1]
      rw [e2]
      simp only [hmap]
      rw [List.countP_append]
      simp [h0, List.countP_cons, hpredupd]
    · rw [e1, e2]
      simp [List.length_map]

/-- Witness for C6: starting from an empty fee collection, two calls of
`createInitialFeeRecord` for student 1 in June 2025 leave exactly one
tuition record for that month, and the second call does not grow the
collection. -/
theorem createInitialFeeRecord_idempotent_witness :
    ([] : List FeeRec).countP (tuitionThisMonth 1 ⟨2025, 5, 15⟩) = 0 ∧
    (createInitialFeeRecord (some 1) (some 2) 100 ⟨2025, 5, 15⟩
        (createInitialFeeRecord (some 1) (some 2) 100 ⟨2025, 5, 15⟩
          ([] : List FeeRec)).2).2.countP (tuitionThisMonth 1 ⟨2025, 5, 15⟩) = 1 ∧
    (createInitialFeeRecord (some 1) (some 2) 100 ⟨2025, 5, 15⟩
        (createInitialFeeRecord (some 1) (some 2) 100 ⟨2025, 5, 15⟩
          ([] : List FeeRec)).2).2.length =
      (createInitialFeeRecord (some 1) (some 2) 100 ⟨2025, 5, 15⟩
        ([] : List FeeRec)).2.length := by
  have h := (createInitialFeeRecord_idempotent 1 2 100 ⟨2025, 5, 15⟩
    ([] : List FeeRec)).2.2 (by decide)
  exact ⟨by decide, h.2.1, h.2.2⟩

/-- C9: the CSV line parser splits on commas outside double-quoted
regions and preserves commas inside them:
`John,"Doe, Jr.",30` parses to `["John", "Doe, Jr.", "30"]`. -/
theorem csv_quoted_comma :
    parseCsvLine "John,\"Doe, Jr.\",30" = ["John", "Doe, Jr.", "30"] := by
  decide

/-- Counterexample to C8 as stated: for a header cell whose display text
starts with `'('`, the substring before the first parenthesis is empty,
so the claim demands an empty key and a fatal parse error; but the regex
`/^([^(]+)/` fails to match such a text and `parseFile` falls back to the
whole trimmed text, producing the non-empty key `"(Optional)"` and no
error. -/
theorem header_key_cex :
    cleanHeaderKey "(Optional)" = "(Optional)" ∧
    specHeaderKey "(Optional)" = "" ∧
    checkHeaders ["(Optional)"] = Except.ok ["(Optional)"] :=
  ⟨by decide, by decide, rfl⟩

/-- C8 amended: a header cell's key is the trimmed substring before its
first parenthesis whenever at least one character precedes that
parenthesis; a text starting with `'('` instead keeps its whole trimmed
text as key, and a falsy text maps to `""`; parsing aborts with the fatal
empty-header error exactly when some resulting key is empty, before any
data row is processed. -/
theorem header_key_amended (s : String) (hs : List String) :
    (s.toList ≠ [] → s.toList.head? ≠ some '(' →
      cleanHeaderKey s = specHeaderKey s) ∧
    (s ≠ "" → s.toList.head? = some '(' →
      cleanHeaderKey s = (trimChars s.toList).asString) ∧
    cleanHeaderKey "" = "" ∧
    ((∃ h ∈ hs, cleanHeaderKey h = "") →
      checkHeaders hs =
        Except.error "Empty column headers found. Please ensure all columns have headers.") ∧
    ((∀ h ∈ hs, cleanHeaderKey h ≠ "") →
      checkHeaders hs = Except.ok (hs.map cleanHeaderKey)) := by
  refine ⟨?_, ?_, rfl, ?_, ?_⟩
  · intro hne hhead
    have hsne : s ≠ "" := by
      intro h
      subst h
      exact hne rfl
    have hcap : ¬ (s.toList.takeWhile (fun c => c ≠ '(')).isEmpty = true := by
      cases hl : s.toList with
      | nil => exact absurd hl hne
      | cons c rest =>
        have hc : c ≠ '(' := by
          intro h
          rw [hl] at hhead
          exact hhead (by rw [h]; rfl)
        simp [List.takeWhile_cons, hc]
    unfold cleanHeaderKey specHeaderKey
    rw [if_neg hsne, if_neg hcap]
  · intro hsne hhead
    have hcap : (s.toList.takeWhile (fun c => c ≠ '(')).isEmpty = true := by
      cases hl : s.toList with
      | nil => rfl
      | cons c rest =>
        rw [hl] at hhead
        have hc : c = '(' := by
          have := Option.some.inj hhead
          exact this
        simp [List.takeWhile_cons, hc]
    unfold cleanHeaderKey
    rw [if_neg hsne, if_pos hcap]
  · intro hex
    rcases hex with ⟨h, hmem, hempty⟩
    unfold checkHeaders
    rw [if_pos]
    exact List.any_eq_true.mpr
      ⟨cleanHeaderKey h, List.mem_map_of_mem cleanHeaderKey hmem, by simp [hempty]⟩
  · intro hall
    unfold checkHeaders
    rw [if_neg]
    intro hany
    rcases List.any_eq_true.mp hany with ⟨k, hkmem, hk⟩
    rcases List.mem_map.mp hkmem with ⟨h, hmem, rfl⟩
    exact hall h hmem (by simpa using hk)

/-- Witness for the amended C8: `"rollNumber (REQUIRED, unique)"` maps to
key `"rollNumber"` (matching the spec-prescribed key), and a header of
`"   (Optional)"` (spaces before the parenthesis, so the rule applies and
yields an empty key) aborts parsing with the fatal error. -/
theorem header_key_amended_witness :
    cleanHeaderKey "rollNumber (REQUIRED, unique)" =
      specHeaderKey "rollNumber (REQUIRED, unique)" ∧
    specHeaderKey "rollNumber (REQUIRED, unique)" = "rollNumber" ∧
    checkHeaders ["   (Optional)"] =
      Except.error "Empty column headers found. Please ensure all columns have headers." := by
  refine ⟨?_, by decide, ?_⟩
  · exact (header_key_amended "rollNumber (REQUIRED, unique)" []).1
      (by decide) (by decide)
  · exact (header_key_amended "" ["   (Optional)"]).2.2.2.1
      ⟨"   (Optional)", by simp, by decide⟩

theorem at_not_mem_cleanNameChars (s : String) : '@' ∉ cleanNameChars s := by
  intro h
  have := List.mem_filter.mp h
  simpa [lcAlnum] using this.2

theorem splitOnChar_append (c : Char) (xs ys : List Char) (hxs : c ∉ xs) :
    splitOnChar c (xs ++ c :: ys) = xs :: splitOnChar c ys := by
  induction xs with
  | nil => simp [splitOnChar]
  | cons x rest ih =>
    have hx : ¬ x = c := fun h => hxs (h ▸ List.mem_cons_self x rest)
    have hrest : c ∉ rest := fun h => hxs (List.mem_cons_of_mem x h)
    rw [List.cons_append]
    simp only [splitOnChar, if_neg hx]
    rw [ih hrest]

theorem emailBaseChars_eq (f l : String) :
    emailBaseChars f l =
      ("std".toList ++ cleanNameChars f ++ cleanNameChars l) ++
        '@' :: "schoolms.com".toList := by
  unfold emailBaseChars
  rw [show ("@schoolms.com".toList : List Char) =
    '@' :: "schoolms.com".toList from rfl]

theorem splitOnChar_emailBase (f l : String) :
    splitOnChar '@' (emailBaseChars f l) =
      ["std".toList ++ cleanNameChars f ++ cleanNameChars l,
       "schoolms.com".toList] := by
  rw [emailBaseChars_eq, splitOnChar_append]
  · rw [show splitOnChar '@' "schoolms.com".toList =
      ["schoolms.com".toList] from by decide]
  · intro hmem
    rcases List.mem_append.mp hmem with h1 | h2
    · rcases List.mem_append.mp h1 with h3 | h4
      · simp at h3
      · exact at_not_mem_cleanNameChars f h4
    · exact at_not_mem_cleanNameChars l h2

/-- Counterexample to C4 as stated: student Alice Wong supplies the
email `stdzz@schoolms.com`, which does not match the synthetic pattern
`std<lowercasedFirst><lowercasedLast>@<domain>` (that would be
`stdalicewong@schoolms.com`), so the claim demands auto-generation; but
the source only tests `startsWith('std')` and `endsWith('@schoolms.com')`,
accepts the supplied address, and creates the account with it. -/
theorem student_email_autogen_cex :
    (processStudentRow 9 ⟨2025, 5, 15⟩ ⟨[], [], [], [], []⟩
      [("firstName", "Alice"), ("lastName", "Wong"), ("rollNumber", "R1"),
       ("class", "5"), ("section", "A"), ("gender", "F"),
       ("monthlyFee", "100"), ("fatherName", "Fa"), ("motherName", "Mo"),
       ("contactNumber", "123"), ("email", "stdzz@schoolms.com")]).toOption.map
        (fun d => d.users.map User.email) = some ["stdzz@schoolms.com"] ∧
    "stdzz@schoolms.com" ≠ (emailBaseChars "Alice" "Wong").asString := by
  constructor
  · decide
  · decide

/-- C4 amended: a student row's email is auto-generated exactly when the
given email is absent, does not start with `std`, or does not end with
`@schoolms.com` (not on every mismatch with the full synthetic pattern);
the generated address is `std<cleanFirst><cleanLast>@schoolms.com` built
from the alphanumeric-only lowercased names when that address is free,
and on collision an incrementing numeric suffix is appended to the local
part, so the second student with an identical cleaned name gets
suffix 1. -/
theorem student_email_autogen (uploader : Nat) (now : SDate) (db : Db)
    (row : Row) (users : List User) (f l : String) :
    (requiredStudentFields.filter (fun fd => getVal row fd = "") = [] →
      autoGenCond row = true →
      db.students.any (fun s => s.rollNumber = getVal row "rollNumber") = false →
      (processStudentRow uploader now db row).toOption.map
          (fun d => d.users.map User.email) =
        some (db.users.map User.email ++
          [genStudentEmail db.users (getVal row "firstName")
            (getVal row "lastName")])) ∧
    (emailTaken users (emailBaseChars f l).asString = false →
      genStudentEmail users f l = (emailBaseChars f l).asString) ∧
    (emailTaken users (emailBaseChars f l).asString = true →
      emailTaken users (emailSuffixChars f l 1).asString = false →
      genStudentEmail users f l = (emailSuffixChars f l 1).asString) := by
  refine ⟨?_, ?_, ?_⟩
  · intro hmiss hauto hroll
    simp only [processStudentRow, hmiss, hauto, hroll]
    simp [Except.toOption, List.map_append]
  · intro hfree
    simp [genStudentEmail, hfree]
  · intro htaken hfree1
    simp only [genStudentEmail, htaken, if_true]
    rw [splitOnChar_emailBase]
    simp only [List.headD, List.drop]
    rw [show genLoop users
        ("std".toList ++ cleanNameChars f ++ cleanNameChars l)
        "schoolms.com".toList 1 (users.length + 1) =
      if emailTaken users (emailSuffixChars f l 1).asString then
        genLoop users ("std".toList ++ cleanNameChars f ++ cleanNameChars l)
          "schoolms.com".toList 2 users.length
      else emailSuffixChars f l 1 from rfl]
    rw [hfree1]
    simp

/-- Witness for the amended C4: firstName `O'Brien`, lastName `Smith`
yield the generated address `stdobriensmith@schoolms.com` (non-alphanumeric
stripped, lowercased), and when that address is already taken the second
student with the identical cleaned name gets suffix 1. -/
theorem student_email_autogen_witness :
    genStudentEmail [] "O'Brien" "Smith" =
      (emailBaseChars "O'Brien" "Smith").asString ∧
    (emailBaseChars "O'Brien" "Smith").asString =
      "stdobriensmith@schoolms.com" ∧
    genStudentEmail [⟨1, "A", "B", "stdobriensmith@schoolms.com", "student"⟩]
        "O'Brien" "Smith" = (emailSuffixChars "O'Brien" "Smith" 1).asString ∧
    (emailSuffixChars "O'Brien" "Smith" 1).asString =
      "stdobriensmith1@schoolms.com" := by
  refine ⟨?_, by decide, ?_, by decide⟩
  · exact (student_email_autogen 0 ⟨2025, 5, 15⟩ ⟨[], [], [], [], []⟩ []
      [] "O'Brien" "Smith").2.1 (by decide)
  · exact (student_email_autogen 0 ⟨2025, 5, 15⟩ ⟨[], [], [], [], []⟩ []
      [⟨1, "A", "B", "stdobriensmith@schoolms.com", "student"⟩]
      "O'Brien" "Smith").2.2 (by decide) (by decide)

theorem runImport_counts (step : Db → Row → Except String Db) (db : Db)
    (rows : List Row) (idx : Nat) :
    (runImport step db rows idx).1.successCount +
        (runImport step db rows idx).1.errorCount =
      (runImport step db rows idx).1.total ∧
    (runImport step db rows idx).1.total = rows.length := by
  induction rows generalizing db idx with
  | nil => simp [runImport]
  | cons r rest ih =>
    cases hstep : step db r with
    | ok db2 =>
      have h := ih db2 (idx + 1)
      simp only [runImport, hstep, List.length_cons]
      omega
    | error m =>
      have h := ih db (idx + 1)
      simp only [runImport, hstep, List.length_cons]
      omega

theorem runImport_errors_mem (step : Db → Row → Except String Db) (db : Db)
    (rows : List Row) (idx : Nat) (e : ErrEntry)
    (he : e ∈ (runImport step db rows idx).1.errors) :
    ∃ i r db2, rows.get? i = some r ∧ e.row = idx + i + 2 ∧
      step db2 r = Except.error e.message := by
  induction rows generalizing db idx with
  | nil => simp [runImport] at he
  | cons r rest ih =>
    cases hstep : step db r with
    | ok db2 =>
      rw [runImport] at he
      simp only [hstep] at he
      obtain ⟨i, r', db3, hget, hrow, hstep'⟩ := ih db2 (idx + 1) he
      exact ⟨i + 1, r', db3, hget, by omega, hstep'⟩
    | error m =>
      rw [runImport] at he
      simp only [hstep] at he
      rcases List.mem_cons.mp he with h | h
      · subst h
        exact ⟨0, r, db, rfl, by show idx + 2 = idx + 0 + 2; omega, hstep⟩
      · obtain ⟨i, r', db3, hget, hrow, hstep'⟩ := ih db (idx + 1) h
        exact ⟨i + 1, r', db3, hget, by omega, hstep'⟩

/-- C2 (the code has a bug here): the row loop shared by the importers
does satisfy `successCount + errorCount = totalRecords` for every step
function and row list (in particular for the awaited student importer),
and `deriveStatus` is `'success'`/`'failed'`/`'partial'` exactly per the
claimed rule; but `uploadAdminStaff` and `uploadSupportStaff` never await
`parseFile`, so whatever the uploaded rows are they persist
`totalRecords = undefined` (`none`), `successCount = errorCount = 0` and
history status `'success'`, violating the invariant as soon as the file
has a data row: on a one-row admin file the in-source row loop would
count 1 record while the handler reports none. -/
theorem import_accounting (uploader : Nat) (now : SDate) (db : Db)
    (rows : List Row) (s e : Nat)
    (step : Db → Row → Except String Db) (db2 : Db) (rows2 : List Row)
    (idx : Nat) :
    ((runImport step db2 rows2 idx).1.successCount +
        (runImport step db2 rows2 idx).1.errorCount = rows2.length) ∧
    ((uploadStudentsCore uploader now db rows).1.successCount +
        (uploadStudentsCore uploader now db rows).1.errorCount =
      rows.length) ∧
    (deriveStatus s e = "success" ↔ e = 0) ∧
    (deriveStatus s e = "failed" ↔ (s = 0 ∧ 0 < e)) ∧
    (deriveStatus s e = "partial" ↔ (0 < s ∧ 0 < e)) ∧
    ((uploadAdminStaffActual db rows).totalRecords = none ∧
      (uploadAdminStaffActual db rows).successCount +
        (uploadAdminStaffActual db rows).errorCount = 0 ∧
      (uploadAdminStaffActual db rows).historyStatus = "success") ∧
    ((uploadSupportStaffActual db rows).totalRecords = none ∧
      (uploadSupportStaffActual db rows).successCount +
        (uploadSupportStaffActual db rows).errorCount = 0 ∧
      (uploadSupportStaffActual db rows).historyStatus = "success") ∧
    (uploadAdminStaffCore ⟨[], [], [], [], []⟩
      [[("firstName", "Bo"), ("lastName", "Li"), ("email", "bo@mail.com"),
        ("employeeId", "E1"), ("phoneNumber", "1"), ("qualification", "q"),
        ("experience", "2"), ("position", "p"), ("department", "d"),
        ("gender", "m"), ("salary", "100")]]).1.total = 1 := by
  have h1 := runImport_counts step db2 rows2 idx
  have h2 := runImport_counts (processStudentRow uploader now) db rows 0
  refine ⟨by omega, ?_, ?_, ?_, ?_, ⟨rfl, rfl, rfl⟩, ⟨rfl, rfl, rfl⟩, by decide⟩
  · unfold uploadStudentsCore
    omega
  · unfold deriveStatus
    split
    · simp_all
    · split <;> simp_all
  · unfold deriveStatus
    split
    · simp_all
    · split <;> simp_all <;> omega
  · unfold deriveStatus
    split
    · simp_all
    · split <;> simp_all <;> omega

/-- C5 (the code has a bug here): the per-row bodies of
`uploadAdminStaff` / `uploadSupportStaff` do validate a supplied email
and employee ID for uniqueness — a colliding email fails the row with
`'Email already exists'`, a colliding employee ID with
`'Employee ID already exists'`, and the loop records the failure and
continues with the next row; but because those handlers never await
`parseFile`, the loop never runs: an upload whose only row carries a
duplicate email reports no error at all and zero counts. -/
theorem staff_duplicate_validation :
    processAdminRow ⟨[⟨1, "A", "N", "ann@mail.com", "admin"⟩], [], [], [], []⟩
      [("firstName", "Bo"), ("lastName", "Li"), ("email", "ann@mail.com"),
       ("employeeId", "E1"), ("phoneNumber", "1"), ("qualification", "q"),
       ("experience", "2"), ("position", "p"), ("department", "d"),
       ("gender", "m"), ("salary", "100")] =
      Except.error "Email already exists" ∧
    processAdminRow ⟨[], [], [⟨5, "E9"⟩], [], []⟩
      [("firstName", "Bo"), ("lastName", "Li"), ("email", "bo@mail.com"),
       ("employeeId", "E9"), ("phoneNumber", "1"), ("qualification", "q"),
       ("experience", "2"), ("position", "p"), ("department", "d"),
       ("gender", "m"), ("salary", "100")] =
      Except.error "Employee ID already exists" ∧
    processSupportRow ⟨[⟨1, "A", "N", "ann@mail.com", "support-staff"⟩], [], [], [], []⟩
      [("firstName", "Bo"), ("lastName", "Li"), ("email", "ann@mail.com"),
       ("employeeId", "E1"), ("phoneNumber", "1"), ("position", "p"),
       ("experience", "2"), ("gender", "m"), ("salary", "100")] =
      Except.error "Email already exists" ∧
    processSupportRow ⟨[], [], [], [⟨5, "E9"⟩], []⟩
      [("firstName", "Bo"), ("lastName", "Li"), ("email", "bo@mail.com"),
       ("employeeId", "E9"), ("phoneNumber", "1"), ("position", "p"),
       ("experience", "2"), ("gender", "m"), ("salary", "100")] =
      Except.error "Employee ID already exists" ∧
    (uploadAdminStaffCore ⟨[⟨1, "A", "N", "ann@mail.com", "admin"⟩], [], [], [], []⟩
      [[("firstName", "Bo"), ("lastName", "Li"), ("email", "ann@mail.com"),
        ("employeeId", "E1"), ("phoneNumber", "1"), ("qualification", "q"),
        ("experience", "2"), ("position", "p"), ("department", "d"),
        ("gender", "m"), ("salary", "100")],
       [("firstName", "Cy"), ("lastName", "Du"), ("email", "cy@mail.com"),
        ("employeeId", "E2"), ("phoneNumber", "1"), ("qualification", "q"),
        ("experience", "2"), ("position", "p"), ("department", "d"),
        ("gender", "m"), ("salary", "100")]]).1.errors =
      [⟨2, "Email already exists"⟩] ∧
    (uploadAdminStaffCore ⟨[⟨1, "A", "N", "ann@mail.com", "admin"⟩], [], [], [], []⟩
      [[("firstName", "Bo"), ("lastName", "Li"), ("email", "ann@mail.com"),
        ("employeeId", "E1"), ("phoneNumber", "1"), ("qualification", "q"),
        ("experience", "2"), ("position", "p"), ("department", "d"),
        ("gender", "m"), ("salary", "100")],
       [("firstName", "Cy"), ("lastName", "Du"), ("email", "cy@mail.com"),
        ("employeeId", "E2"), ("phoneNumber", "1"), ("qualification", "q"),
        ("experience", "2"), ("position", "p"), ("department", "d"),
        ("gender", "m"), ("salary", "100")]]).1.successCount = 1 ∧
    (uploadAdminStaffActual ⟨[⟨1, "A", "N", "ann@mail.com", "admin"⟩], [], [], [], []⟩
      [[("firstName", "Bo"), ("lastName", "Li"), ("email", "ann@mail.com"),
        ("employeeId", "E1"), ("phoneNumber", "1"), ("qualification", "q"),
        ("experience", "2"), ("position", "p"), ("department", "d"),
        ("gender", "m"), ("salary", "100")]]).errors = [] ∧
    (uploadAdminStaffActual ⟨[⟨1, "A", "N", "ann@mail.com", "admin"⟩], [], [], [], []⟩
      [[("firstName", "Bo"), ("lastName", "Li"), ("email", "ann@mail.com"),
        ("employeeId", "E1"), ("phoneNumber", "1"), ("qualification", "q"),
        ("experience", "2"), ("position", "p"), ("department", "d"),
        ("gender", "m"), ("salary", "100")]]).errorCount = 0 := by
  exact ⟨rfl, rfl, rfl, rfl, by decide, by decide, rfl, rfl⟩

theorem filterRowsGo_get? (rows : List Row) (k i j : Nat) (r : Row)
    (h : (filterRowsGo rows k).get? i = some (j, r)) :
    k ≤ j ∧ rows.get? (j - k) = some r ∧ keepRow r = true ∧
      j = k + i + (rows.take (j - k)).countP (fun x => !(keepRow x)) := by
  induction rows generalizing k i with
  | nil => simp [filterRowsGo] at h
  | cons r0 rest ih =>
    by_cases h0 : keepRow r0 = true
    · rw [filterRowsGo, if_pos h0] at h
      cases i with
      | zero =>
        rw [List.get?_cons_zero] at h
        injection Option.some.inj h with h1 h2
        subst h1; subst h2
        refine ⟨Nat.le_refl k, ?_, h0, ?_⟩
        · simp [Nat.sub_self]
        · simp [Nat.sub_self]
      | succ i' =>
        rw [List.get?_cons_succ] at h
        obtain ⟨hle, hget, hkeep, heq⟩ := ih (k + 1) i' h
        have hd : j - k = (j - (k + 1)) + 1 := by omega
        refine ⟨by omega, ?_, hkeep, ?_⟩
        · rw [hd, List.get?_cons_succ]
          exact hget
        · rw [hd, List.take_succ_cons, List.countP_cons]
          simp [h0]
          omega
    · rw [filterRowsGo, if_neg h0] at h
      obtain ⟨hle, hget, hkeep, heq⟩ := ih (k + 1) i h
      have hd : j - k = (j - (k + 1)) + 1 := by omega
      refine ⟨by omega, ?_, hkeep, ?_⟩
      · rw [hd, List.get?_cons_succ]
        exact hget
      · rw [hd, List.take_succ_cons, List.countP_cons]
        have h0' : keepRow r0 = false := by
          cases hb : keepRow r0
          · rfl
          · exact absurd hb h0
        simp [h0']
        omega

/-- C10: every failure reported by the student import loop carries the
row number `i + 2`, where `i` is the row's index within the filtered data
rows that `parseFile` emitted (empty rows, instruction-like rows, and
rows with none of firstName/lastName/email are silently dropped).  The
row's raw index `j` among the file's data rows (physical file row
`j + 2`) satisfies `j = i + droppedBefore`, so whenever a row before the
failing one was dropped, the reported row number differs from the row's
physical position in the uploaded file. -/
theorem import_row_numbering (uploader : Nat) (now : SDate) (db : Db)
    (rawRows : List Row) (e : ErrEntry)
    (he : e ∈ (uploadStudentsCore uploader now db
      ((filterRows rawRows).map Prod.snd)).1.errors) :
    ∃ i j r, (filterRows rawRows).get? i = some (j, r) ∧
      e.row = i + 2 ∧
      j = i + droppedBefore rawRows j ∧
      (0 < droppedBefore rawRows j → e.row ≠ j + 2) := by
  obtain ⟨i, r, db2, hget, hrow, hstep⟩ :=
    runImport_errors_mem (processStudentRow uploader now) db
      ((filterRows rawRows).map Prod.snd) 0 e he
  have hpair : ∃ p : Nat × Row, (filterRows rawRows).get? i = some p ∧
      p.2 = r := by
    cases hq : (filterRows rawRows).get? i with
    | none =>
      rw [List.get?_map, hq] at hget
      cases hget
    | some p =>
      rw [List.get?_map, hq] at hget
      exact ⟨p, rfl, Option.some.inj hget⟩
  obtain ⟨⟨j, r'⟩, hget2, hr'⟩ := hpair
  obtain ⟨hkj, hraw, hkeep, heq⟩ :=
    filterRowsGo_get? rawRows 0 i j r' hget2
  rw [Nat.sub_zero] at heq
  refine ⟨i, j, r', hget2, by omega, ?_, ?_⟩
  · unfold droppedBefore
    omega
  · intro hpos
    unfold droppedBefore at hpos
    omega

/-- Witness for C10: the first data row of the file is instruction-like
and is dropped, so the failing second data row (raw data index 1,
physical file row 3) has filtered index 0 and is reported as row
`0 + 2 = 2`, which differs from its physical row `1 + 2 = 3`. -/
theorem import_row_numbering_witness :
    (⟨2, "Missing required fields: rollNumber, class, section, gender, monthlyFee, fatherName, motherName, contactNumber"⟩ : ErrEntry) ∈
      (uploadStudentsCore 9 ⟨2025, 5, 15⟩ ⟨[], [], [], [], []⟩
        ((filterRows
          [[("firstName", "IMPORTANT: do not fill this row")],
           [("firstName", "Bo"), ("lastName", "Li")]]).map Prod.snd)).1.errors ∧
    (∃ i j r,
      (filterRows
        [[("firstName", "IMPORTANT: do not fill this row")],
         [("firstName", "Bo"), ("lastName", "Li")]]).get? i = some (j, r) ∧
      (⟨2, "Missing required fields: rollNumber, class, section, gender, monthlyFee, fatherName, motherName, contactNumber"⟩ : ErrEntry).row = i + 2 ∧
      j = i + droppedBefore
        [[("firstName", "IMPORTANT: do not fill this row")],
         [("firstName", "Bo"), ("lastName", "Li")]] j ∧
      (0 < droppedBefore
          [[("firstName", "IMPORTANT: do not fill this row")],
           [("firstName", "Bo"), ("lastName", "Li")]] j →
        (⟨2, "Missing required fields: rollNumber, class, section, gender, monthlyFee, fatherName, motherName, contactNumber"⟩ : ErrEntry).row ≠ j + 2)) := by
  constructor
  · decide
  · exact import_row_numbering 9 ⟨2025, 5, 15⟩ ⟨[], [], [], [], []⟩
      [[("firstName", "IMPORTANT: do not fill this row")],
       [("firstName", "Bo"), ("lastName", "Li")]]
      ⟨2, "Missing required fields: rollNumber, class, section, gender, monthlyFee, fatherName, motherName, contactNumber"⟩
      (by decide)
